import Mathlib

/-!
Verification of the jitsi-meet-logger log collector.

This file gives a shallow embedding, in Lean, of the batching log
collector of the repository and proves (or refutes) the specification
claims about it.  The embedding follows two source files:

* src/lib/LogCollector.ts  (the TypeScript collector; the formatter,
  the aggregation path and the flush state machine), together with
  src/src/Logger.ts for the level table, and
* src/unnamed/part_002     (the JavaScript collector variant, whose
  flush path additionally guards the calls into the log storage:
  LogCollector.prototype._storeLogs and LogCollector.prototype._flush).

JavaScript values that can appear as log arguments are modelled by the
inductive type Arg below: a primitive that is rendered by default text
coercion, or an object carrying both the outcome of JSON.stringify on it
(which may throw, modelled as Except) and its default text coercion.
The storage sink is modelled by the outcomes of its two methods, and
flushing returns, next to the new collector state, the ordered trace of
sink store calls and fallback console.error reports it performed.
-/

deriving instance DecidableEq for Except

/-- The result of applying JSON.stringify to a JavaScript object:
either the produced string or a raised error (for example on a
self-referential structure), together with the object's default text
coercion (what String(obj) would give, used when it is not stringified).
Models the two possible renderings of an object argument reaching
LogCollector.formatLogMessage (src/lib/LogCollector.ts). -/
structure JsObject where
  jsonResult : Except String String
  coerced : String
deriving DecidableEq, Repr

/-- A log-call argument as seen by the collector: either a value that is
not a JavaScript object (rendered by default text coercion, modelled by
the string it renders to) or an object. -/
inductive Arg where
  | str (s : String)
  | obj (o : JsObject)
deriving DecidableEq, Repr

/-- Embeds LogCollector.stringify (src/lib/LogCollector.ts lines
134-140): JSON.stringify inside try/catch, substituting the sentinel
string on failure. -/
def stringify (someObject : JsObject) : String :=
  match someObject.jsonResult with
  | .ok s => s
  | .error _ => "[object with circular refs?]"

/-- The value Logger.levels.ERROR, i.e. LevelConstants.ERROR from
src/src/Logger.ts lines 74-81: the string enum maps the key ERROR to
the value "error". -/
def levelsERROR : String := "error"

/-- The level table of src/src/Logger.ts (LevelConstants): pairs of
enum key and enum value.  Object.keys on the compiled enum object
enumerates the keys (first components). -/
def levelPairs : List (String × String) :=
  [("TRACE", "trace"), ("DEBUG", "debug"), ("INFO", "info"),
   ("LOG", "log"), ("WARN", "warn"), ("ERROR", "error")]

/-- The level argument that the LogCollector constructor
(src/lib/LogCollector.ts lines 91-97) binds into the transport method
stored under a given method name: for each key of Logger.levels the
method named by the VALUE (for example "error") is bound to the KEY
(for example "ERROR").  So the method installed as collector.error
calls this with the string "ERROR". -/
def boundLevelFor (methodName : String) : Option String :=
  (levelPairs.find? (fun p => p.2 = methodName)).map (fun p => p.1)

/-- Embeds the body of processArg inside
LogCollector.formatLogMessage (src/lib/LogCollector.ts lines 160-167):
an object argument is replaced by its stringification when the
stringifyObjects option is enabled or the level equals
Logger.levels.ERROR; any other argument is pushed unchanged (and is
rendered by default coercion when joined). -/
def processArg (stringifyObjects : Bool) (logLevel : String) (arg : Arg) : String :=
  match arg with
  | .obj o =>
      if stringifyObjects || logLevel = levelsERROR then stringify o else o.coerced
  | .str s => s

/-- Embeds LogCollector.formatLogMessage (src/lib/LogCollector.ts lines
157-178): process the optional timestamp as a leading argument, then
each further argument, join the parts with a comma separator, and
return null (none) when there are no parts at all. -/
def formatLogMessage (stringifyObjects : Bool) (logLevel : String)
    (timestamp : Option Arg) (args : List Arg) : Option String :=
  let parts : List String :=
    ((match timestamp with | some t => [t] | none => []) ++ args).map
      (processArg stringifyObjects logLevel)
  if parts.length ≠ 0 then some (String.intercalate "," parts) else none

example : formatLogMessage false "LOG" none [.str "hello"] = some "hello" := by decide
example : formatLogMessage false "LOG" none [] = none := by decide
example : formatLogMessage true "LOG" none [.obj ⟨.ok "[1,2]", "1,2"⟩] = some "[1,2]" := by decide
example : formatLogMessage false "ERROR" none [.obj ⟨.ok "[1,2]", "1,2"⟩] = some "1,2" := by decide

/-- One record of the collector's queue, mirroring the objects pushed in
LogCollector._log (src/lib/LogCollector.ts lines 195-199): the formatted
text, the timestamp of the first occurrence, and how many identical
messages in a row it stands for. -/
structure Entry where
  text : String
  timestamp : Option Arg
  count : Nat
deriving DecidableEq, Repr

/-- The log storage sink, modelled by the outcomes of its two methods
(the LogStorage shape of src/lib/LogCollector.ts lines 17-20): the
result of isReady (a boolean, or a raised error) and, for each batch it
could be handed, the result of storeLogs (return, or a raised error).
The outcomes are fixed for the duration of one flush, matching a sink
whose behaviour does not change between the collector's calls. -/
structure LogStorage where
  isReadyResult : Except String Bool
  storeLogsResult : List Entry → Except String Unit

/-- One observable action the collector performs towards the outside
during a flush: a storeLogs call handing a batch to the sink, or a
console.error report on the fallback diagnostic channel. -/
inductive SinkEvent where
  | storeLogs (batch : List Entry)
  | consoleError (msg : String)
deriving DecidableEq, Repr

/-- The mutable fields of a LogCollector instance
(src/lib/LogCollector.ts lines 84-120).  The timer slot
storeLogsIntervalID is modelled by whether a flush timer is currently
armed (the field is a timeout id or null in the source; only
armed/disarmed matters to the claims). -/
structure CollectorState where
  stringifyObjects : Bool
  storeInterval : Int
  maxEntryLength : Int
  timerArmed : Bool
  queue : List Entry
  totalLen : Nat
  outputCache : List (List Entry)
deriving DecidableEq, Repr

/-- The constructor options object (src/lib/LogCollector.ts lines
22-26): each field may be present or absent. -/
structure Options where
  maxEntryLength : Option Int := none
  storeInterval : Option Int := none
  stringifyObjects : Option Bool := none
deriving DecidableEq, Repr

/-- JavaScript truthiness of a possibly absent number: an absent field
and the number 0 are falsy. -/
def truthyInt (v : Option Int) : Bool :=
  match v with
  | some n => n ≠ 0
  | none => false

/-- Embeds the option handling of the LogCollector constructor
(src/lib/LogCollector.ts lines 84-120): each recognized option is used
only when the options object is present and the field is truthy, and
falls back to its default (false, 30000, 10000) otherwise; the queue,
the total length, the output cache and the timer slot start empty. -/
def mkLogCollector (options : Option Options) : CollectorState :=
  { stringifyObjects :=
      match options with
      | some o => (match o.stringifyObjects with
                   | some b => if b then b else false
                   | none => false)
      | none => false
    storeInterval :=
      match options with
      | some o => (match o.storeInterval with
                   | some n => if truthyInt (some n) then n else 30000
                   | none => 30000)
      | none => 30000
    maxEntryLength :=
      match options with
      | some o => (match o.maxEntryLength with
                   | some n => if truthyInt (some n) then n else 10000
                   | none => 10000)
      | none => 10000
    timerArmed := false
    queue := []
    totalLen := 0
    outputCache := [] }

/-- Embeds LogCollector.prototype.storeLogsGuarded behaviour, i.e. the
function named with a leading underscore at src/unnamed/part_002 lines
626-638: hand the batch to logStorage.storeLogs and, when that call
raises, catch the error and report it on console.error; the batch is
never retried. The produced trace records the store call itself and,
on failure, the report. -/
def storeLogsGuarded (logStorage : LogStorage) (logs : List Entry) : List SinkEvent :=
  match logStorage.storeLogsResult logs with
  | .ok _ => [.storeLogs logs]
  | .error e =>
      [.storeLogs logs,
       .consoleError ("LogCollector error when calling logStorage.storeLogs(): " ++ e)]

/-- Embeds the flush routine of src/unnamed/part_002 lines 651-688
(LogCollector.prototype level method named with a leading underscore):
query readiness inside try/catch treating a raised error as not ready
and reporting it; when there is anything queued and the sink is ready
or the flush is forced, either drain every cached batch and then the
current queue through the guarded store call (ready case, clearing the
cache), or append the queue as one new snapshot to the cache (forced
and not ready); on either of those paths reset the queue and the total
length; finally rearm the timer when rescheduling was requested.  The
TypeScript variant (src/lib/LogCollector.ts lines 262-291) is the same
algorithm without the two try/catch guards. -/
def flushCollector (logStorage : LogStorage) (force reschedule : Bool)
    (st : CollectorState) : CollectorState × List SinkEvent :=
  let readyPair : Bool × List SinkEvent :=
    match logStorage.isReadyResult with
    | .ok b => (b, [])
    | .error e =>
        (false,
         [.consoleError ("LogCollector error when calling logStorage.isReady(): " ++ e)])
  let logStorageReady := readyPair.1
  let publishPair : CollectorState × List SinkEvent :=
    if 0 < st.totalLen ∧ (logStorageReady = true ∨ force = true) then
      if logStorageReady then
        ({ st with queue := [], totalLen := 0, outputCache := [] },
         (st.outputCache.map (storeLogsGuarded logStorage)).flatten
           ++ storeLogsGuarded logStorage st.queue)
      else
        ({ st with queue := [], totalLen := 0,
                   outputCache := st.outputCache ++ [st.queue] }, [])
    else (st, [])
  let st2 :=
    if reschedule then { publishPair.1 with timerArmed := true } else publishPair.1
  (st2, readyPair.2 ++ publishPair.2)

/-- Embeds the aggregation part of LogCollector._log
(src/lib/LogCollector.ts lines 188-202): when the formatted message is
the same as the text of the last queue entry, bump that entry's count;
otherwise push a new entry and add the text's length to the total. -/
def aggregateMessage (st : CollectorState) (msg : String) (timestamp : Option Arg) :
    CollectorState :=
  match st.queue.getLast? with
  | some prevMessage =>
      if prevMessage.text = msg then
        { st with queue := st.queue.dropLast ++ [{ prevMessage with count := prevMessage.count + 1 }] }
      else
        { st with queue := st.queue ++ [{ text := msg, timestamp := timestamp, count := 1 }],
                  totalLen := st.totalLen + msg.length }
  | none =>
      { st with queue := st.queue ++ [{ text := msg, timestamp := timestamp, count := 1 }],
                totalLen := st.totalLen + msg.length }

/-- One submission reaching the collector's transport method for some
level: the level key bound by the constructor (for example "ERROR"),
the timestamp argument, and the remaining arguments; mirrors how the
bound methods forward their arguments to the private log method. -/
structure Submission where
  level : String
  timestamp : Option Arg
  args : List Arg
deriving DecidableEq, Repr

/-- The state after steps 1-2 of the private log method
(src/lib/LogCollector.ts lines 184-202): format the message and, when
it is truthy (a non-empty string), aggregate it into the queue; a null
or empty formatted message leaves the state untouched. -/
def logAggregate (st : CollectorState) (sub : Submission) : CollectorState :=
  match formatLogMessage st.stringifyObjects sub.level sub.timestamp sub.args with
  | some m => if 0 < m.length then aggregateMessage st m sub.timestamp else st
  | none => st

/-- Embeds the private log method of the collector
(src/lib/LogCollector.ts lines 184-207): aggregate the submission, then,
when the total length has reached maxEntryLength, perform a forced,
rescheduling flush at once. -/
def logSubmission (logStorage : LogStorage) (st : CollectorState) (sub : Submission) :
    CollectorState × List SinkEvent :=
  let afterAgg := logAggregate st sub
  if afterAgg.maxEntryLength ≤ (afterAgg.totalLen : Int) then
    flushCollector logStorage true true afterAgg
  else
    (afterAgg, [])

/-- Embeds LogCollector.start (src/lib/LogCollector.ts lines 213-215):
arm the flush timer. -/
def startCollector (st : CollectorState) : CollectorState :=
  { st with timerArmed := true }

/-- Embeds the public LogCollector.flush (src/lib/LogCollector.ts lines
237-241): flush without forcing, rescheduling the timer. -/
def flushPublic (logStorage : LogStorage) (st : CollectorState) :
    CollectorState × List SinkEvent :=
  flushCollector logStorage false true st

/-- Embeds LogCollector.stop (src/lib/LogCollector.ts lines 247-250 and
src/unnamed/part_002 lines 694-697): one final flush without forcing and
without rescheduling. -/
def stopCollector (logStorage : LogStorage) (st : CollectorState) :
    CollectorState × List SinkEvent :=
  flushCollector logStorage false false st

/-- Fold a list of submissions through the private log method,
discarding the emitted sink events. -/
def processAll (logStorage : LogStorage) (st : CollectorState)
    (subs : List Submission) : CollectorState :=
  subs.foldl (fun s sub => (logSubmission logStorage s sub).1) st

/-- The formatted text of a submission when the private log method
would enqueue it (formatting produced a truthy, i.e. non-empty,
string), and none otherwise. -/
def enqueuedText (stringifyObjects : Bool) (sub : Submission) : Option String :=
  match formatLogMessage stringifyObjects sub.level sub.timestamp sub.args with
  | some m => if 0 < m.length then some m else none
  | none => none

/-- The formatted texts of those submissions that the private log
method actually enqueues. -/
def formattedTexts (stringifyObjects : Bool) (subs : List Submission) : List String :=
  subs.filterMap (enqueuedText stringifyObjects)

/-- The text and count of each queue entry, in order: the part of the
queue the aggregation claims speak about. -/
def projQ (q : List Entry) : List (String × Nat) :=
  q.map (fun e => (e.text, e.count))

/-- Run-length grouping of a list of texts: each maximal run of equal
consecutive texts becomes one pair of the text and the run's length. -/
def rle : List String → List (String × Nat)
  | [] => []
  | x :: xs =>
      match rle xs with
      | [] => [(x, 1)]
      | (t, n) :: rest => if x = t then (t, n + 1) :: rest else (x, 1) :: (t, n) :: rest

/-- How the aggregation step acts on the text/count projection of the
queue: bump the last pair's count when its text matches, else append a
fresh pair. -/
def rleStep (acc : List (String × Nat)) (m : String) : List (String × Nat) :=
  match acc.getLast? with
  | some p => if p.1 = m then acc.dropLast ++ [(p.1, p.2 + 1)] else acc ++ [(m, 1)]
  | none => [(m, 1)]

/-- Sum of the text lengths of the grouped entries, each counted once:
the value the collector keeps in totalLen. -/
def rleLen (l : List (String × Nat)) : Nat :=
  (l.map (fun p => p.1.length)).sum

/-- Expand a run-length grouping back into the flat list of texts. -/
def rleDecode (l : List (String × Nat)) : List String :=
  (l.map (fun p => List.replicate p.2 p.1)).flatten

example : rle ["a", "a", "b", "a"] = [("a", 2), ("b", 1), ("a", 1)] := by decide
example : rleDecode [("a", 2), ("b", 1)] = ["a", "a", "b"] := by decide

lemma getLast?_cons_of_ne_nil {α : Type} (p : α) {l : List α} (h : l ≠ []) :
    (p :: l).getLast? = l.getLast? := by
  cases l with
  | nil => exact absurd rfl h
  | cons q l' => simp [List.getLast?_cons_cons]

lemma dropLast_cons_of_ne_nil {α : Type} (p : α) {l : List α} (h : l ≠ []) :
    (p :: l).dropLast = p :: l.dropLast := by
  cases l with
  | nil => exact absurd rfl h
  | cons q l' => rfl

lemma rleStep_cons (p : String × Nat) {acc : List (String × Nat)} (h : acc ≠ [])
    (m : String) : rleStep (p :: acc) m = p :: rleStep acc m := by
  obtain ⟨q, hq⟩ : ∃ q, acc.getLast? = some q := by
    cases acc with
    | nil => exact absurd rfl h
    | cons a l => exact ⟨_, List.getLast?_eq_getLast _ (by simp)⟩
  unfold rleStep
  rw [getLast?_cons_of_ne_nil p h, hq]
  by_cases hm : q.1 = m
  · simp [hm, dropLast_cons_of_ne_nil p h]
  · simp [hm]

lemma rleStep_single (a : String) (b : Nat) (m : String) :
    rleStep [(a, b)] m = if a = m then [(a, b + 1)] else [(a, b), (m, 1)] := by
  unfold rleStep
  simp

lemma rle_ne_nil {l : List String} (h : l ≠ []) : rle l ≠ [] := by
  cases l with
  | nil => exact absurd rfl h
  | cons x xs =>
      unfold rle
      cases hxs : rle xs with
      | nil => simp
      | cons p rest => obtain ⟨t, n⟩ := p; by_cases hx : x = t <;> simp [hx]

/-- Appending one text on the right acts on the grouping as one
aggregation step on the projection. -/
lemma rle_append_single (l : List String) (x : String) :
    rle (l ++ [x]) = rleStep (rle l) x := by
  induction l with
  | nil => rfl
  | cons y l ih =>
      cases l with
      | nil =>
          show rle [y, x] = rleStep (rle [y]) x
          by_cases hyx : y = x <;>
            simp [rle, rleStep, List.getLast?, hyx]
      | cons z l' =>
          have hne : rle (z :: l') ≠ [] := rle_ne_nil (by simp)
          obtain ⟨⟨t, n⟩, tl, htl⟩ :
              ∃ p tl, rle (z :: l') = p :: tl := by
            cases hzl : rle (z :: l') with
            | nil => exact absurd hzl hne
            | cons p tl => exact ⟨p, tl, rfl⟩
          have lhs : rle ((y :: z :: l') ++ [x])
              = match rleStep ((t, n) :: tl) x with
                | [] => [(y, 1)]
                | (t, n) :: rest =>
                    if y = t then (t, n + 1) :: rest else (y, 1) :: (t, n) :: rest := by
            show (match rle ((z :: l') ++ [x]) with
                  | [] => [(y, 1)]
                  | (t, n) :: rest =>
                      if y = t then (t, n + 1) :: rest else (y, 1) :: (t, n) :: rest) = _
            rw [ih, htl]
          have hrle : rle (y :: z :: l')
              = if y = t then (t, n + 1) :: tl else (y, 1) :: (t, n) :: tl := by
            show (match rle (z :: l') with
                  | [] => [(y, 1)]
                  | (t, n) :: rest =>
                      if y = t then (t, n + 1) :: rest else (y, 1) :: (t, n) :: rest) = _
            rw [htl]
          rw [lhs, hrle]
          cases tl with
          | nil =>
              have hpair : rleStep [(y, 1), (t, n)] x = (y, 1) :: rleStep [(t, n)] x :=
                rleStep_cons (y, 1) (by simp) x
              by_cases htx : t = x
              · subst htx
                by_cases hyt : y = t <;> simp [rleStep_single, hpair, hyt]
              · by_cases hyt : y = t
                · subst hyt
                  simp [rleStep_single, hpair, htx]
                · simp [rleStep_single, hpair, htx, hyt]
          | cons w tl' =>
              have h1 : rleStep ((t, n) :: w :: tl') x
                  = (t, n) :: rleStep (w :: tl') x :=
                rleStep_cons (t, n) (by simp) x
              have h2 : rleStep ((t, n + 1) :: w :: tl') x
                  = (t, n + 1) :: rleStep (w :: tl') x :=
                rleStep_cons (t, n + 1) (by simp) x
              have h3 : rleStep ((y, 1) :: (t, n) :: w :: tl') x
                  = (y, 1) :: rleStep ((t, n) :: w :: tl') x :=
                rleStep_cons (y, 1) (by simp) x
              by_cases hyt : y = t
              · rw [if_pos hyt, h1, h2]
                simp [hyt]
              · rw [if_neg hyt, h3, h1]
                simp [hyt]


lemma getLast?_spec {α : Type} {l : List α} {p : α} (h : l.getLast? = some p) :
    l = l.dropLast ++ [p] :=
  (List.dropLast_append_getLast? _ (by simpa using h)).symm

lemma getLast?_none_iff {α : Type} {l : List α} : l.getLast? = none ↔ l = [] := by
  cases l with
  | nil => simp
  | cons a as => simp [List.getLast?_eq_getLast (a :: as) (by simp)]

lemma rleStep_of_last_some {acc : List (String × Nat)} {p : String × Nat}
    (h : acc.getLast? = some p) (m : String) :
    rleStep acc m
      = if p.1 = m then acc.dropLast ++ [(p.1, p.2 + 1)] else acc ++ [(m, 1)] := by
  unfold rleStep
  rw [h]

lemma rleStep_of_last_none {acc : List (String × Nat)}
    (h : acc.getLast? = none) (m : String) : rleStep acc m = [(m, 1)] := by
  unfold rleStep
  rw [h]

lemma rle_cons_of_eq {xs : List String} {t : String} {n : Nat}
    {rest : List (String × Nat)} (hxs : rle xs = (t, n) :: rest) (x : String) :
    rle (x :: xs) = if x = t then (t, n + 1) :: rest else (x, 1) :: (t, n) :: rest := by
  show (match rle xs with
        | [] => [(x, 1)]
        | (t, n) :: rest =>
            if x = t then (t, n + 1) :: rest else (x, 1) :: (t, n) :: rest) = _
  rw [hxs]

lemma rle_cons_of_nil {xs : List String} (hxs : rle xs = []) (x : String) :
    rle (x :: xs) = [(x, 1)] := by
  show (match rle xs with
        | [] => [(x, 1)]
        | (t, n) :: rest =>
            if x = t then (t, n + 1) :: rest else (x, 1) :: (t, n) :: rest) = _
  rw [hxs]

lemma rleLen_append (l1 l2 : List (String × Nat)) :
    rleLen (l1 ++ l2) = rleLen l1 + rleLen l2 := by
  simp [rleLen]

lemma rleLen_rleStep_last_eq {acc : List (String × Nat)} {p : String × Nat} {m : String}
    (h : acc.getLast? = some p) (hm : p.1 = m) :
    rleLen (rleStep acc m) = rleLen acc := by
  rw [rleStep_of_last_some h, if_pos hm]
  conv_rhs => rw [getLast?_spec h]
  simp [rleLen_append, rleLen]

lemma rleLen_rleStep_other {acc : List (String × Nat)} {m : String}
    (h : ∀ p, acc.getLast? = some p → p.1 ≠ m) :
    rleLen (rleStep acc m) = rleLen acc + m.length := by
  cases hl : acc.getLast? with
  | none =>
      rw [rleStep_of_last_none hl]
      rw [getLast?_none_iff.1 hl]
      simp [rleLen]
  | some p =>
      rw [rleStep_of_last_some hl, if_neg (h p hl)]
      simp [rleLen_append, rleLen]

lemma rleLen_le_rleStep (acc : List (String × Nat)) (m : String) :
    rleLen acc ≤ rleLen (rleStep acc m) := by
  cases hl : acc.getLast? with
  | none =>
      rw [rleLen_rleStep_other (fun p hp => by rw [hl] at hp; cases hp)]
      omega
  | some p =>
      by_cases hm : p.1 = m
      · rw [rleLen_rleStep_last_eq hl hm]
      · rw [rleLen_rleStep_other (fun q hq => by rw [hl] at hq; cases hq; exact hm)]
        omega

lemma rleDecode_cons (p : String × Nat) (l : List (String × Nat)) :
    rleDecode (p :: l) = List.replicate p.2 p.1 ++ rleDecode l := by
  simp [rleDecode]

/-- Expanding the run-length grouping recovers the original list: the
grouping loses no text and invents none. -/
lemma rleDecode_rle (l : List String) : rleDecode (rle l) = l := by
  induction l with
  | nil => rfl
  | cons x xs ih =>
      cases hxs : rle xs with
      | nil =>
          have hn : xs = [] := by
            by_contra h
            exact rle_ne_nil h hxs
          subst hn
          simp [rle, rleDecode]
      | cons p rest =>
          obtain ⟨t, n⟩ := p
          rw [hxs] at ih
          rw [rle_cons_of_eq hxs x]
          by_cases hx : x = t
          · rw [if_pos hx]
            rw [rleDecode_cons] at ih ⊢
            simp only [List.replicate_succ] at ih ⊢
            rw [hx, List.cons_append, ih]
          · rw [if_neg hx]
            rw [rleDecode_cons]
            simp [ih]

/-- Every count in the run-length grouping is at least one. -/
lemma rle_counts_pos (l : List String) : ∀ p ∈ rle l, 1 ≤ p.2 := by
  induction l with
  | nil => intro p hp; cases hp
  | cons x xs ih =>
      cases hxs : rle xs with
      | nil =>
          rw [rle_cons_of_nil hxs x]
          intro p hp
          simp at hp
          subst hp
          exact le_refl 1
      | cons q rest =>
          obtain ⟨t, n⟩ := q
          rw [hxs] at ih
          rw [rle_cons_of_eq hxs x]
          by_cases hx : x = t
          · rw [if_pos hx]
            intro p hp
            rcases List.mem_cons.1 hp with h | h
            · subst h; exact Nat.le_add_left 1 n
            · exact ih p (List.mem_cons_of_mem _ h)
          · rw [if_neg hx]
            intro p hp
            rcases List.mem_cons.1 hp with h | h
            · subst h; exact le_refl 1
            · exact ih p h

/-- Adjacent groups in the run-length grouping carry different texts:
each group is a maximal run. -/
lemma rle_chain (l : List String) :
    (rle l).Chain' (fun p q => p.1 ≠ q.1) := by
  induction l with
  | nil => exact List.chain'_nil
  | cons x xs ih =>
      cases hxs : rle xs with
      | nil =>
          rw [rle_cons_of_nil hxs x]
          exact List.chain'_singleton _
      | cons q rest =>
          obtain ⟨t, n⟩ := q
          rw [hxs] at ih
          rw [rle_cons_of_eq hxs x]
          by_cases hx : x = t
          · rw [if_pos hx]
            rw [List.chain'_cons'] at ih ⊢
            exact ⟨fun b hb => ih.1 b hb, ih.2⟩
          · rw [if_neg hx]
            rw [List.chain'_cons]
            exact ⟨hx, ih⟩

lemma projQ_append (q1 q2 : List Entry) : projQ (q1 ++ q2) = projQ q1 ++ projQ q2 := by
  simp [projQ]

lemma projQ_getLast? (q : List Entry) :
    (projQ q).getLast? = q.getLast?.map (fun e => (e.text, e.count)) := by
  simp [projQ, List.getLast?_map]

lemma projQ_dropLast (q : List Entry) : projQ q.dropLast = (projQ q).dropLast := by
  simp [projQ, List.map_dropLast]

lemma aggregateMessage_of_last_none {st : CollectorState} {m : String} {ts : Option Arg}
    (h : st.queue.getLast? = none) :
    aggregateMessage st m ts
      = { st with queue := st.queue ++ [{ text := m, timestamp := ts, count := 1 }],
                  totalLen := st.totalLen + m.length } := by
  unfold aggregateMessage
  rw [h]

lemma aggregateMessage_of_last_some {st : CollectorState} {m : String} {ts : Option Arg}
    {prev : Entry} (h : st.queue.getLast? = some prev) :
    aggregateMessage st m ts
      = if prev.text = m then
          { st with queue := st.queue.dropLast ++ [{ prev with count := prev.count + 1 }] }
        else
          { st with queue := st.queue ++ [{ text := m, timestamp := ts, count := 1 }],
                    totalLen := st.totalLen + m.length } := by
  unfold aggregateMessage
  rw [h]

/-- The aggregation step of the log method, seen through the text/count
projection of the queue: it performs exactly one run-length grouping
step, keeps the total length equal to the grouped length, and leaves
every other field of the collector untouched. -/
lemma aggregateMessage_spec (st : CollectorState) (m : String) (ts : Option Arg)
    (h : st.totalLen = rleLen (projQ st.queue)) :
    projQ (aggregateMessage st m ts).queue = rleStep (projQ st.queue) m
    ∧ (aggregateMessage st m ts).totalLen = rleLen (rleStep (projQ st.queue) m)
    ∧ (aggregateMessage st m ts).stringifyObjects = st.stringifyObjects
    ∧ (aggregateMessage st m ts).maxEntryLength = st.maxEntryLength
    ∧ (aggregateMessage st m ts).storeInterval = st.storeInterval
    ∧ (aggregateMessage st m ts).timerArmed = st.timerArmed
    ∧ (aggregateMessage st m ts).outputCache = st.outputCache := by
  cases hq : st.queue.getLast? with
  | none =>
      have hpq : (projQ st.queue).getLast? = none := by
        rw [projQ_getLast?, hq]
        rfl
      rw [aggregateMessage_of_last_none hq, rleStep_of_last_none hpq]
      have hqnil : st.queue = [] := getLast?_none_iff.1 hq
      refine ⟨?_, ?_, rfl, rfl, rfl, rfl, rfl⟩
      · simp [hqnil, projQ]
      · simp [h, hqnil, projQ, rleLen]
  | some prev =>
      have hpq : (projQ st.queue).getLast? = some (prev.text, prev.count) := by
        rw [projQ_getLast?, hq]
        rfl
      rw [aggregateMessage_of_last_some hq, rleStep_of_last_some hpq]
      by_cases hm : prev.text = m
      · rw [if_pos hm]
        have hm' : (prev.text, prev.count).1 = m := hm
        rw [if_pos hm']
        refine ⟨?_, ?_, rfl, rfl, rfl, rfl, rfl⟩
        · simp [projQ_append, projQ_dropLast, projQ]
        · rw [h]
          exact (rleLen_rleStep_last_eq hpq hm' ▸ (by rw [rleStep_of_last_some hpq, if_pos hm']))
      · rw [if_neg hm]
        have hm' : ¬((prev.text, prev.count).1 = m) := hm
        rw [if_neg hm']
        refine ⟨?_, ?_, rfl, rfl, rfl, rfl, rfl⟩
        · simp [projQ_append, projQ]
        · have := @rleLen_rleStep_other (projQ st.queue) m
            (fun q hqq => by rw [hpq] at hqq; cases hqq; exact hm')
          rw [rleStep_of_last_some hpq, if_neg hm'] at this
          rw [this, h]

lemma logAggregate_eq (st : CollectorState) (sub : Submission) :
    logAggregate st sub
      = match enqueuedText st.stringifyObjects sub with
        | some m => aggregateMessage st m sub.timestamp
        | none => st := by
  unfold logAggregate enqueuedText
  cases hf : formatLogMessage st.stringifyObjects sub.level sub.timestamp sub.args with
  | none => rfl
  | some m =>
      by_cases hlen : 0 < m.length
      · simp [hlen]
      · simp [hlen]

lemma formattedTexts_append (so : Bool) (l1 l2 : List Submission) :
    formattedTexts so (l1 ++ l2) = formattedTexts so l1 ++ formattedTexts so l2 := by
  simp [formattedTexts]

lemma processAll_append_single (L : LogStorage) (st : CollectorState)
    (l : List Submission) (sub : Submission) :
    processAll L st (l ++ [sub]) = (logSubmission L (processAll L st l) sub).1 := by
  simp [processAll, List.foldl_append]

/-- Folding a sequence of submissions into a fresh collector performs
run-length aggregation, as long as the grouped total length stays below
the configured threshold (so the size-triggered flush never fires). -/
lemma processAll_agg (L : LogStorage) (opts : Option Options) (subs : List Submission)
    (h : (rleLen (rle (formattedTexts (mkLogCollector opts).stringifyObjects subs)) : Int)
           < (mkLogCollector opts).maxEntryLength) :
    (processAll L (mkLogCollector opts) subs).stringifyObjects
        = (mkLogCollector opts).stringifyObjects
    ∧ (processAll L (mkLogCollector opts) subs).maxEntryLength
        = (mkLogCollector opts).maxEntryLength
    ∧ projQ (processAll L (mkLogCollector opts) subs).queue
        = rle (formattedTexts (mkLogCollector opts).stringifyObjects subs)
    ∧ (processAll L (mkLogCollector opts) subs).totalLen
        = rleLen (rle (formattedTexts (mkLogCollector opts).stringifyObjects subs)) := by
  induction subs using List.reverseRecOn with
  | nil =>
      refine ⟨rfl, rfl, rfl, rfl⟩
  | append_singleton l sub ih =>
      set so := (mkLogCollector opts).stringifyObjects with hso
      set M := (mkLogCollector opts).maxEntryLength with hM
      have hsplit : formattedTexts so (l ++ [sub])
          = formattedTexts so l ++ formattedTexts so [sub] :=
        formattedTexts_append so l [sub]
      cases he : enqueuedText so sub with
      | none =>
          have htexts : formattedTexts so (l ++ [sub]) = formattedTexts so l := by
            rw [hsplit]
            simp [formattedTexts, he]
          rw [htexts] at h
          obtain ⟨ih1, ih2, ih3, ih4⟩ := ih h
          have hagg : logAggregate (processAll L (mkLogCollector opts) l) sub
              = processAll L (mkLogCollector opts) l := by
            rw [logAggregate_eq, ih1, he]
          have hnof : ¬ ((processAll L (mkLogCollector opts) l).maxEntryLength
              ≤ ((processAll L (mkLogCollector opts) l).totalLen : Int)) := by
            rw [ih2, ih4]
            omega
          rw [processAll_append_single, logSubmission, hagg, if_neg hnof, htexts]
          exact ⟨ih1, ih2, ih3, ih4⟩
      | some m =>
          have htexts : formattedTexts so (l ++ [sub]) = formattedTexts so l ++ [m] := by
            rw [hsplit]
            simp [formattedTexts, he]
          have hstep : rle (formattedTexts so (l ++ [sub]))
              = rleStep (rle (formattedTexts so l)) m := by
            rw [htexts, rle_append_single]
          have hmono : rleLen (rle (formattedTexts so l))
              ≤ rleLen (rle (formattedTexts so (l ++ [sub]))) := by
            rw [hstep]
            exact rleLen_le_rleStep _ m
          have hl : (rleLen (rle (formattedTexts so l)) : Int) < M := by
            omega
          obtain ⟨ih1, ih2, ih3, ih4⟩ := ih hl
          set stl := processAll L (mkLogCollector opts) l with hstl
          have hinv : stl.totalLen = rleLen (projQ stl.queue) := by
            rw [ih3, ih4]
          obtain ⟨a1, a2, a3, a4, a5, a6, a7⟩ :=
            aggregateMessage_spec stl m sub.timestamp hinv
          have hagg : logAggregate stl sub = aggregateMessage stl m sub.timestamp := by
            rw [logAggregate_eq, ih1, he]
          have hlen' : (aggregateMessage stl m sub.timestamp).totalLen
              = rleLen (rle (formattedTexts so (l ++ [sub]))) := by
            rw [a2, ih3, hstep]
          have hnof : ¬ ((aggregateMessage stl m sub.timestamp).maxEntryLength
              ≤ ((aggregateMessage stl m sub.timestamp).totalLen : Int)) := by
            rw [a4, ih2, hlen']
            omega
          rw [processAll_append_single, logSubmission, hagg, if_neg hnof]
          refine ⟨by rw [a3, ih1], by rw [a4, ih2], ?_, ?_⟩
          · rw [a1, ih3, hstep]
          · rw [hlen']

/-- A ready sink with something queued: the flush drains every cached
batch in order through the guarded store call, then the current queue,
clears queue, length and cache, and handles the timer per the
reschedule flag. -/
lemma flushCollector_ready {L : LogStorage} (hready : L.isReadyResult = .ok true)
    {st : CollectorState} (hlen : 0 < st.totalLen) (force reschedule : Bool) :
    flushCollector L force reschedule st
      = ({ st with queue := [], totalLen := 0, outputCache := [],
                   timerArmed := if reschedule then true else st.timerArmed },
         (st.outputCache.map (storeLogsGuarded L)).flatten
           ++ storeLogsGuarded L st.queue) := by
  unfold flushCollector
  rw [hready]
  simp only [hlen, true_and, true_or, if_pos, if_true]
  cases reschedule <;> simp

/-- A non-ready sink with something queued under a forced flush: no
store call happens, the queue moves as one snapshot to the tail of the
cache, and queue and length reset. -/
lemma flushCollector_notReady_forced {L : LogStorage}
    (hready : L.isReadyResult = .ok false) {st : CollectorState}
    (hlen : 0 < st.totalLen) (reschedule : Bool) :
    flushCollector L true reschedule st
      = ({ st with queue := [], totalLen := 0,
                   outputCache := st.outputCache ++ [st.queue],
                   timerArmed := if reschedule then true else st.timerArmed },
         []) := by
  unfold flushCollector
  rw [hready]
  simp only [hlen, true_and, or_true]
  cases reschedule <;> simp

/-- A non-ready sink and no forcing: nothing is published and nothing
is cached; only the timer handling runs. -/
lemma flushCollector_notReady_unforced {L : LogStorage}
    (hready : L.isReadyResult = .ok false) (st : CollectorState) (reschedule : Bool) :
    flushCollector L false reschedule st
      = (if reschedule then { st with timerArmed := true } else st, []) := by
  unfold flushCollector
  rw [hready]
  simp

/-- An empty queue: the state is not touched regardless of readiness
or forcing; only the timer handling runs. -/
lemma flushCollector_empty_state {L : LogStorage} {st : CollectorState}
    (hlen : st.totalLen = 0) (force reschedule : Bool) :
    (flushCollector L force reschedule st).1
      = if reschedule then { st with timerArmed := true } else st := by
  unfold flushCollector
  cases hr : L.isReadyResult with
  | ok b => simp [hlen]
  | error e => simp [hlen]

/-- A raised error from the readiness probe is caught: the resulting
state is exactly that of the same flush against a sink answering not
ready, and the only difference in behaviour is the leading fallback
console report of the caught error. -/
lemma flushCollector_isReady_error {L : LogStorage} {e : String}
    (he : L.isReadyResult = .error e) (force reschedule : Bool) (st : CollectorState) :
    flushCollector L force reschedule st
      = ((flushCollector { L with isReadyResult := .ok false } force reschedule st).1,
         .consoleError ("LogCollector error when calling logStorage.isReady(): " ++ e)
           :: (flushCollector { L with isReadyResult := .ok false } force reschedule st).2) := by
  unfold flushCollector
  rw [he]
  simp

/-- The batches handed to the sink's storeLogs, in call order, read off
an event trace (console reports are not sink calls). -/
def storeCallBatches (events : List SinkEvent) : List (List Entry) :=
  events.filterMap (fun ev =>
    match ev with
    | .storeLogs b => some b
    | .consoleError _ => none)

lemma storeCallBatches_guarded (L : LogStorage) (b : List Entry) :
    storeCallBatches (storeLogsGuarded L b) = [b] := by
  unfold storeLogsGuarded
  cases hr : L.storeLogsResult b <;> simp [storeCallBatches]

lemma storeCallBatches_append (e1 e2 : List SinkEvent) :
    storeCallBatches (e1 ++ e2) = storeCallBatches e1 ++ storeCallBatches e2 := by
  simp [storeCallBatches]

lemma storeCallBatches_flatten_map (L : LogStorage) (batches : List (List Entry)) :
    storeCallBatches ((batches.map (storeLogsGuarded L)).flatten) = batches := by
  induction batches with
  | nil => rfl
  | cons b bs ih =>
      simp only [List.map_cons, List.flatten_cons, storeCallBatches_append,
        storeCallBatches_guarded, ih]
      rfl

/-- The invariant of claim C9: the tracked total length is zero exactly
when the queue is empty. -/
def queueLenInvariant (st : CollectorState) : Prop :=
  st.totalLen = 0 ↔ st.queue = []

lemma enqueuedText_pos {so : Bool} {sub : Submission} {m : String}
    (h : enqueuedText so sub = some m) : 0 < m.length := by
  unfold enqueuedText at h
  cases hf : formatLogMessage so sub.level sub.timestamp sub.args with
  | none => rw [hf] at h; cases h
  | some m' =>
      rw [hf] at h
      have h' : (if 0 < m'.length then some m' else none) = some m := h
      by_cases hl : 0 < m'.length
      · rw [if_pos hl] at h'
        cases h'
        exact hl
      · rw [if_neg hl] at h'
        cases h'

lemma aggregateMessage_inv (st : CollectorState) (m : String) (ts : Option Arg)
    (hm : 0 < m.length) (h : queueLenInvariant st) :
    queueLenInvariant (aggregateMessage st m ts) := by
  cases hq : st.queue.getLast? with
  | none =>
      rw [aggregateMessage_of_last_none hq]
      unfold queueLenInvariant
      simp
      omega
  | some prev =>
      have hqne : st.queue ≠ [] := by
        intro hn
        rw [hn] at hq
        cases hq
      have htl : st.totalLen ≠ 0 := fun h0 => hqne (h.1 h0)
      rw [aggregateMessage_of_last_some hq]
      by_cases hmm : prev.text = m
      · rw [if_pos hmm]
        unfold queueLenInvariant
        simp [htl]
      · rw [if_neg hmm]
        unfold queueLenInvariant
        simp
        omega

lemma flushCollector_inv (L : LogStorage) (force reschedule : Bool)
    (st : CollectorState) (h : queueLenInvariant st) :
    queueLenInvariant (flushCollector L force reschedule st).1 := by
  have hreset : ∀ st' : CollectorState,
      st'.totalLen = 0 → st'.queue = [] → queueLenInvariant st' := by
    intro st' h1 h2
    unfold queueLenInvariant
    rw [h1, h2]
    simp
  have hkeep : ∀ b : Bool, queueLenInvariant (if b then { st with timerArmed := true } else st) := by
    intro b
    cases b
    · simpa using h
    · simpa [queueLenInvariant] using h
  by_cases hlen : st.totalLen = 0
  · rw [flushCollector_empty_state hlen]
    exact hkeep reschedule
  · have hlen' : 0 < st.totalLen := Nat.pos_of_ne_zero hlen
    cases hr : L.isReadyResult with
    | error e =>
        rw [flushCollector_isReady_error hr]
        show queueLenInvariant (flushCollector { L with isReadyResult := .ok false } force reschedule st).1
        cases force with
        | true =>
            rw [flushCollector_notReady_forced rfl hlen' reschedule]
            exact hreset _ rfl rfl
        | false =>
            rw [flushCollector_notReady_unforced rfl st reschedule]
            exact hkeep reschedule
    | ok b =>
        cases b with
        | true =>
            rw [flushCollector_ready hr hlen' force reschedule]
            exact hreset _ rfl rfl
        | false =>
            cases force with
            | true =>
                rw [flushCollector_notReady_forced hr hlen' reschedule]
                exact hreset _ rfl rfl
            | false =>
                rw [flushCollector_notReady_unforced hr st reschedule]
                exact hkeep reschedule

lemma logSubmission_inv (L : LogStorage) (st : CollectorState) (sub : Submission)
    (h : queueLenInvariant st) : queueLenInvariant (logSubmission L st sub).1 := by
  have hst' : queueLenInvariant (logAggregate st sub) := by
    rw [logAggregate_eq]
    cases he : enqueuedText st.stringifyObjects sub with
    | none => exact h
    | some m => exact aggregateMessage_inv st m sub.timestamp (enqueuedText_pos he) h
  show queueLenInvariant
    (if (logAggregate st sub).maxEntryLength ≤ ((logAggregate st sub).totalLen : Int)
     then flushCollector L true true (logAggregate st sub)
     else (logAggregate st sub, [])).1
  by_cases hc : (logAggregate st sub).maxEntryLength ≤ ((logAggregate st sub).totalLen : Int)
  · rw [if_pos hc]
    exact flushCollector_inv L true true _ hst'
  · rw [if_neg hc]
    exact hst'

/-- A sink that is ready and stores without error. -/
def readySink : LogStorage := ⟨.ok true, fun _ => .ok ()⟩

/-- A sink that reports not ready and stores without error. -/
def notReadySink : LogStorage := ⟨.ok false, fun _ => .ok ()⟩

/-- A sink whose readiness probe raises. -/
def throwingSink : LogStorage := ⟨.error "boom", fun _ => .ok ()⟩

/-- A queue entry for the text hello. -/
def sampleEntry : Entry := { text := "hello", timestamp := none, count := 1 }

/-- A collector state with one queued entry of length five and an empty
cache. -/
def sampleState : CollectorState :=
  { stringifyObjects := false, storeInterval := 30000, maxEntryLength := 10000,
    timerArmed := false, queue := [sampleEntry], totalLen := 5, outputCache := [] }

/-- A cached batch. -/
def batchA : List Entry := [{ text := "a", timestamp := none, count := 1 }]

/-- Another cached batch. -/
def batchB : List Entry := [{ text := "bb", timestamp := none, count := 2 }]

/-- A collector state with two cached batches and a non-empty queue. -/
def cachedState : CollectorState :=
  { stringifyObjects := false, storeInterval := 30000, maxEntryLength := 10000,
    timerArmed := false, queue := [{ text := "cc", timestamp := none, count := 1 }],
    totalLen := 2, outputCache := [batchA, batchB] }

/-- A ready sink whose store call raises on the first cached batch. -/
def faultySink : LogStorage :=
  ⟨.ok true, fun b => if b = batchA then .error "disk full" else .ok ()⟩

/-- C1: the claim states that an object argument is stringified exactly
when the stringifyObjects option is enabled or the severity is error.
The code disagrees on the error side: the constructor binds the level
KEY (the string ERROR) into each transport method, while the formatter
compares it against the enum VALUE (the string error), so the
comparison never succeeds and an object logged at error severity with
stringifyObjects disabled is rendered by default text coercion, not
stringified.  This theorem evaluates the embedded code at the failing
input: the error transport method receives the bound level ERROR, and
formatting a JavaScript array (an object whose JSON text would be
[1,2] and whose default coercion is 1,2) yields the coerced text. -/
theorem claim_C1_error_level_object_not_stringified :
    boundLevelFor "error" = some "ERROR"
    ∧ ("ERROR" = levelsERROR) = False
    ∧ formatLogMessage false "ERROR" none [.obj ⟨.ok "[1,2]", "1,2"⟩] = some "1,2"
    ∧ formatLogMessage false "ERROR" none [.obj ⟨.ok "[1,2]", "1,2"⟩] ≠ some "[1,2]"
    ∧ formatLogMessage true "ERROR" none [.obj ⟨.ok "[1,2]", "1,2"⟩] = some "[1,2]" := by
  refine ⟨by decide, by simp [levelsERROR], by decide, by decide, by decide⟩

/-- C2: when the readiness probe raises, the flush catches the error,
reports it on the fallback console channel, treats the sink as not
ready, and otherwise proceeds exactly as a flush against a sink that
answered not ready; in particular it returns normally. -/
theorem claim_C2_isReady_error_recovered (L : LogStorage) (e : String)
    (force reschedule : Bool) (st : CollectorState)
    (he : L.isReadyResult = .error e) :
    flushCollector L force reschedule st
      = ((flushCollector { L with isReadyResult := .ok false } force reschedule st).1,
         .consoleError ("LogCollector error when calling logStorage.isReady(): " ++ e)
           :: (flushCollector { L with isReadyResult := .ok false } force reschedule st).2) :=
  flushCollector_isReady_error he force reschedule st

/-- Witness for C2 at a concrete sink and state. -/
theorem claim_C2_witness :
    throwingSink.isReadyResult = .error "boom"
    ∧ flushCollector throwingSink true true sampleState
      = ((flushCollector { throwingSink with isReadyResult := .ok false } true true sampleState).1,
         .consoleError ("LogCollector error when calling logStorage.isReady(): " ++ "boom")
           :: (flushCollector { throwingSink with isReadyResult := .ok false } true true sampleState).2) :=
  ⟨rfl, claim_C2_isReady_error_recovered throwingSink "boom" true true sampleState rfl⟩

/-- C3: during a ready flush every store call goes through the guard:
the emitted trace is exactly the concatenation of the guarded traces of
the cached batches followed by that of the current queue (so a raised
store error is reported and draining continues), the sink receives each
batch exactly once in order, the cache is cleared regardless of store
outcomes, and the resulting collector state does not depend on the
store outcomes at all (no retry, no re-queueing). -/
theorem claim_C3_store_calls_individually_guarded (L : LogStorage)
    (force reschedule : Bool) (st : CollectorState)
    (hready : L.isReadyResult = .ok true) (hlen : 0 < st.totalLen) :
    (flushCollector L force reschedule st).2
        = ((st.outputCache ++ [st.queue]).map (storeLogsGuarded L)).flatten
    ∧ storeCallBatches (flushCollector L force reschedule st).2
        = st.outputCache ++ [st.queue]
    ∧ (flushCollector L force reschedule st).1.outputCache = []
    ∧ ∀ storeB : List Entry → Except String Unit,
        (flushCollector { L with storeLogsResult := storeB } force reschedule st).1
          = (flushCollector L force reschedule st).1 := by
  have h1 := flushCollector_ready hready hlen force reschedule
  refine ⟨?_, ?_, ?_, ?_⟩
  · rw [h1]
    simp [List.map_append]
  · rw [h1]
    simp only [storeCallBatches_append, storeCallBatches_flatten_map,
      storeCallBatches_guarded]
  · rw [h1]
  · intro storeB
    have h2 := @flushCollector_ready { L with storeLogsResult := storeB }
      hready st hlen force reschedule
    rw [h1, h2]

/-- Witness for C3 at a sink which raises on the first cached batch. -/
theorem claim_C3_witness :
    faultySink.isReadyResult = .ok true
    ∧ 0 < cachedState.totalLen
    ∧ (flushCollector faultySink false true cachedState).2
        = ((cachedState.outputCache ++ [cachedState.queue]).map (storeLogsGuarded faultySink)).flatten
    ∧ storeCallBatches (flushCollector faultySink false true cachedState).2
        = cachedState.outputCache ++ [cachedState.queue]
    ∧ (flushCollector faultySink false true cachedState).1.outputCache = [] :=
  ⟨rfl, by decide,
   (claim_C3_store_calls_individually_guarded faultySink false true cachedState rfl (by decide)).1,
   (claim_C3_store_calls_individually_guarded faultySink false true cachedState rfl (by decide)).2.1,
   (claim_C3_store_calls_individually_guarded faultySink false true cachedState rfl (by decide)).2.2.1⟩

/-- C7: a flush against a ready sink with a non-empty queue hands the
sink every cached snapshot in original FIFO order, then the current
queue, and leaves the cache empty. -/
theorem claim_C7_ready_flush_drains_cache_in_order (L : LogStorage)
    (force reschedule : Bool) (st : CollectorState)
    (hready : L.isReadyResult = .ok true)
    (hinv : queueLenInvariant st) (hq : st.queue ≠ []) :
    storeCallBatches (flushCollector L force reschedule st).2
        = st.outputCache ++ [st.queue]
    ∧ (flushCollector L force reschedule st).1.outputCache = [] := by
  have hlen : 0 < st.totalLen := Nat.pos_of_ne_zero (fun h0 => hq (hinv.1 h0))
  have h1 := flushCollector_ready hready hlen force reschedule
  refine ⟨?_, ?_⟩
  · rw [h1]
    simp only [storeCallBatches_append, storeCallBatches_flatten_map,
      storeCallBatches_guarded]
  · rw [h1]

/-- Witness for C7 at a concrete sink and state. -/
theorem claim_C7_witness :
    readySink.isReadyResult = .ok true
    ∧ (cachedState.totalLen = 0 ↔ cachedState.queue = [])
    ∧ cachedState.queue ≠ []
    ∧ storeCallBatches (flushCollector readySink false true cachedState).2
        = cachedState.outputCache ++ [cachedState.queue]
    ∧ (flushCollector readySink false true cachedState).1.outputCache = [] :=
  ⟨rfl, by decide, by decide,
   (claim_C7_ready_flush_drains_cache_in_order readySink false true cachedState rfl
      (show cachedState.totalLen = 0 ↔ cachedState.queue = [] by decide) (by decide)).1,
   (claim_C7_ready_flush_drains_cache_in_order readySink false true cachedState rfl
      (show cachedState.totalLen = 0 ↔ cachedState.queue = [] by decide) (by decide)).2⟩

/-- C8: a forced flush against a non-ready sink with a non-empty queue
makes no sink call and no report, appends the current queue verbatim as
one new snapshot at the tail of the cache without merging, and resets
the queue and the total length. -/
theorem claim_C8_forced_flush_not_ready_caches (L : LogStorage)
    (reschedule : Bool) (st : CollectorState)
    (hready : L.isReadyResult = .ok false)
    (hinv : queueLenInvariant st) (hq : st.queue ≠ []) :
    (flushCollector L true reschedule st).2 = []
    ∧ (flushCollector L true reschedule st).1.outputCache
        = st.outputCache ++ [st.queue]
    ∧ (flushCollector L true reschedule st).1.queue = []
    ∧ (flushCollector L true reschedule st).1.totalLen = 0 := by
  have hlen : 0 < st.totalLen := Nat.pos_of_ne_zero (fun h0 => hq (hinv.1 h0))
  have h1 := flushCollector_notReady_forced hready hlen reschedule
  rw [h1]
  exact ⟨rfl, rfl, rfl, rfl⟩

/-- Witness for C8 at a concrete sink and state. -/
theorem claim_C8_witness :
    notReadySink.isReadyResult = .ok false
    ∧ (cachedState.totalLen = 0 ↔ cachedState.queue = [])
    ∧ cachedState.queue ≠ []
    ∧ (flushCollector notReadySink true true cachedState).2 = []
    ∧ (flushCollector notReadySink true true cachedState).1.outputCache
        = cachedState.outputCache ++ [cachedState.queue]
    ∧ (flushCollector notReadySink true true cachedState).1.queue = []
    ∧ (flushCollector notReadySink true true cachedState).1.totalLen = 0 :=
  ⟨rfl, by decide, by decide,
   (claim_C8_forced_flush_not_ready_caches notReadySink true cachedState rfl
      (show cachedState.totalLen = 0 ↔ cachedState.queue = [] by decide) (by decide)).1,
   (claim_C8_forced_flush_not_ready_caches notReadySink true cachedState rfl
      (show cachedState.totalLen = 0 ↔ cachedState.queue = [] by decide) (by decide)).2.1,
   (claim_C8_forced_flush_not_ready_caches notReadySink true cachedState rfl
      (show cachedState.totalLen = 0 ↔ cachedState.queue = [] by decide) (by decide)).2.2.1,
   (claim_C8_forced_flush_not_ready_caches notReadySink true cachedState rfl
      (show cachedState.totalLen = 0 ↔ cachedState.queue = [] by decide) (by decide)).2.2.2⟩

lemma flushCollector_reschedule_timer (L : LogStorage) (force : Bool)
    (st : CollectorState) : (flushCollector L force true st).1.timerArmed = true := by
  unfold flushCollector
  cases hr : L.isReadyResult <;> rfl

/-- C4 counterexample: the claim predicts that stopping while the sink
is not ready and the queue is non-empty appends the final batch to the
OutputCache.  At this concrete input the stop call leaves the state
completely unchanged: the cache stays empty (the batch is NOT appended
to it) and the batch stays in the live queue. -/
theorem claim_C4_counterexample :
    notReadySink.isReadyResult = .ok false
    ∧ sampleState.queue ≠ []
    ∧ stopCollector notReadySink sampleState = (sampleState, [])
    ∧ (stopCollector notReadySink sampleState).1.outputCache = []
    ∧ ¬ (stopCollector notReadySink sampleState).1.outputCache = [sampleState.queue] :=
  ⟨rfl, by decide, by decide, by decide, by decide⟩

/-- C4 amended: stop performs one final flush with force and reschedule
both false; because the flush does not force delivery past the
readiness gate, a non-ready sink at stop time means nothing is sent,
nothing is cached, and the whole collector state (queue included) is
left untouched, with no sink call and no report. -/
theorem claim_C4_stop_not_ready_leaves_queue (L : LogStorage) (st : CollectorState)
    (hready : L.isReadyResult = .ok false) :
    stopCollector L st = flushCollector L false false st
    ∧ stopCollector L st = (st, []) := by
  refine ⟨rfl, ?_⟩
  show flushCollector L false false st = (st, [])
  rw [flushCollector_notReady_unforced hready st false]
  simp

/-- Witness for the amended C4 at a concrete sink and state. -/
theorem claim_C4_witness :
    notReadySink.isReadyResult = .ok false
    ∧ (stopCollector notReadySink cachedState
          = flushCollector notReadySink false false cachedState
       ∧ stopCollector notReadySink cachedState = (cachedState, [])) :=
  ⟨rfl, claim_C4_stop_not_ready_leaves_queue notReadySink cachedState rfl⟩

/-- C5: with no intervening flush (the grouped total length stays below
the threshold), the fresh collector's queue is exactly the run-length
grouping of the non-empty formatted texts of the submissions, and the
total length is the sum of the grouped texts counted once each; the
grouping itself is certified as such: decoding it restores the text
sequence, adjacent groups differ (runs are maximal), and every count is
at least one. -/
theorem claim_C5_queue_is_run_length_grouping (L : LogStorage)
    (opts : Option Options) (subs : List Submission)
    (h : (rleLen (rle (formattedTexts (mkLogCollector opts).stringifyObjects subs)) : Int)
           < (mkLogCollector opts).maxEntryLength) :
    projQ (processAll L (mkLogCollector opts) subs).queue
        = rle (formattedTexts (mkLogCollector opts).stringifyObjects subs)
    ∧ (processAll L (mkLogCollector opts) subs).totalLen
        = rleLen (rle (formattedTexts (mkLogCollector opts).stringifyObjects subs))
    ∧ rleDecode (rle (formattedTexts (mkLogCollector opts).stringifyObjects subs))
        = formattedTexts (mkLogCollector opts).stringifyObjects subs
    ∧ (rle (formattedTexts (mkLogCollector opts).stringifyObjects subs)).Chain'
        (fun p q => p.1 ≠ q.1)
    ∧ ∀ p ∈ rle (formattedTexts (mkLogCollector opts).stringifyObjects subs), 1 ≤ p.2 := by
  obtain ⟨_, _, h3, h4⟩ := processAll_agg L opts subs h
  exact ⟨h3, h4, rleDecode_rle _, rle_chain _, rle_counts_pos _⟩

/-- A submission logging the word hello at the log level. -/
def subHello : Submission := { level := "LOG", timestamp := none, args := [.str "hello"] }

/-- A submission logging the word world at the log level. -/
def subWorld : Submission := { level := "LOG", timestamp := none, args := [.str "world"] }

/-- Witness for C5: hello, hello, world groups to hello times two and
world times one, with total length ten. -/
theorem claim_C5_witness :
    ((rleLen (rle (formattedTexts (mkLogCollector none).stringifyObjects
        [subHello, subHello, subWorld])) : Int) < (mkLogCollector none).maxEntryLength)
    ∧ projQ (processAll readySink (mkLogCollector none) [subHello, subHello, subWorld]).queue
        = rle (formattedTexts (mkLogCollector none).stringifyObjects
            [subHello, subHello, subWorld])
    ∧ (processAll readySink (mkLogCollector none) [subHello, subHello, subWorld]).totalLen
        = rleLen (rle (formattedTexts (mkLogCollector none).stringifyObjects
            [subHello, subHello, subWorld]))
    ∧ rle (formattedTexts (mkLogCollector none).stringifyObjects
        [subHello, subHello, subWorld]) = [("hello", 2), ("world", 1)] :=
  ⟨by decide,
   (claim_C5_queue_is_run_length_grouping readySink none
      [subHello, subHello, subWorld] (by decide)).1,
   (claim_C5_queue_is_run_length_grouping readySink none
      [subHello, subHello, subWorld] (by decide)).2.1,
   by decide⟩

/-- C6: right after a submission is aggregated, if the total length has
reached the threshold, the log method performs exactly a forced flush
with rescheduling on the aggregated state, and afterwards the periodic
timer is armed. -/
theorem claim_C6_threshold_triggers_forced_flush (L : LogStorage)
    (st : CollectorState) (sub : Submission)
    (h : (logAggregate st sub).maxEntryLength ≤ ((logAggregate st sub).totalLen : Int)) :
    logSubmission L st sub = flushCollector L true true (logAggregate st sub)
    ∧ (logSubmission L st sub).1.timerArmed = true := by
  have heq : logSubmission L st sub = flushCollector L true true (logAggregate st sub) := by
    show (if (logAggregate st sub).maxEntryLength ≤ ((logAggregate st sub).totalLen : Int)
          then flushCollector L true true (logAggregate st sub)
          else (logAggregate st sub, [])) = _
    rw [if_pos h]
  refine ⟨heq, ?_⟩
  rw [heq]
  exact flushCollector_reschedule_timer L true (logAggregate st sub)

/-- A fresh collector configured with a threshold of five. -/
def smallCollector : CollectorState := mkLogCollector (some { maxEntryLength := some 5 })

/-- A submission whose formatted text abcdef has length six. -/
def abcdefSub : Submission := { level := "LOG", timestamp := none, args := [.str "abcdef"] }

/-- Witness for C6: with threshold five, submitting abcdef (length six)
triggers the forced rescheduling flush at once. -/
theorem claim_C6_witness :
    ((logAggregate smallCollector abcdefSub).maxEntryLength
        ≤ ((logAggregate smallCollector abcdefSub).totalLen : Int))
    ∧ (logSubmission readySink smallCollector abcdefSub
          = flushCollector readySink true true (logAggregate smallCollector abcdefSub)
       ∧ (logSubmission readySink smallCollector abcdefSub).1.timerArmed = true) :=
  ⟨by decide,
   claim_C6_threshold_triggers_forced_flush readySink smallCollector abcdefSub (by decide)⟩

/-- C9: the invariant that the total length is zero exactly when the
queue is empty holds for a freshly constructed collector with any
options and is preserved by every per-level log submission and by every
flush, forced or not, rescheduling or not, against any sink. -/
theorem claim_C9_totalLen_zero_iff_queue_empty :
    (∀ opts : Option Options, queueLenInvariant (mkLogCollector opts))
    ∧ (∀ (L : LogStorage) (st : CollectorState) (sub : Submission),
        queueLenInvariant st → queueLenInvariant (logSubmission L st sub).1)
    ∧ (∀ (L : LogStorage) (force reschedule : Bool) (st : CollectorState),
        queueLenInvariant st → queueLenInvariant (flushCollector L force reschedule st).1) :=
  ⟨fun _ => by simp [queueLenInvariant, mkLogCollector],
   logSubmission_inv,
   flushCollector_inv⟩

/-- Witness for C9: the invariant is preserved through a concrete
submission on a concrete state satisfying it. -/
theorem claim_C9_witness :
    queueLenInvariant (logSubmission readySink sampleState subHello).1 :=
  claim_C9_totalLen_zero_iff_queue_empty.2.1 readySink sampleState subHello
    (show sampleState.totalLen = 0 ↔ sampleState.queue = [] by decide)

/-- An options object whose three recognized fields are all present
and all falsy. -/
def falsyOptions : Options :=
  { maxEntryLength := some 0, storeInterval := some 0, stringifyObjects := some false }

/-- C10: a constructor option that is present but falsy (zero for the
numeric options, false for the boolean one) configures the collector
exactly as omitting the option: the defaults ten thousand, thirty
thousand and false apply, so a zero threshold or a zero interval cannot
be configured. -/
theorem claim_C10_falsy_options_fall_back (o : Options) :
    mkLogCollector (some { o with maxEntryLength := some 0 })
        = mkLogCollector (some { o with maxEntryLength := none })
    ∧ mkLogCollector (some { o with storeInterval := some 0 })
        = mkLogCollector (some { o with storeInterval := none })
    ∧ mkLogCollector (some { o with stringifyObjects := some false })
        = mkLogCollector (some { o with stringifyObjects := none })
    ∧ (mkLogCollector (some falsyOptions)).maxEntryLength = 10000
    ∧ (mkLogCollector (some falsyOptions)).storeInterval = 30000
    ∧ (mkLogCollector (some falsyOptions)).stringifyObjects = false
    ∧ mkLogCollector (some falsyOptions) = mkLogCollector none := by
  refine ⟨?_, ?_, ?_, by decide, by decide, by decide, by decide⟩
  · simp [mkLogCollector, truthyInt]
  · simp [mkLogCollector, truthyInt]
  · simp [mkLogCollector, truthyInt]
